import Mathlib

/-!
Verification of the CNPM exam system core.

This file gives a shallow embedding, in Lean 4, of the algorithmic core of the
CNPM multiple-choice examination system:

* the scoring engine `score_question_partial` (models.py, embedded here as
  `score_question`),
* the persistent `DataStore` document migration performed by `DataStore.load`
  (models.py), its default seeding, and `new_unique_code`,
* the exam-taking session state machine of `ExamTakeFrame` (ui/student.py):
  `load_exam`, `start_exam_now`, `_tick`, `on_focus_out`, `submit` and
  `_submit_internal`,
* the `open_by_code` entry check of `StudentFrame` (ui/student.py).

Machine reals (Python floats) are modelled as rationals `ℚ`; Python `int(x)`
truncation toward zero is modelled by `pyTrunc`.  Python sets of small integers
are modelled as `Finset ℕ`.  The Tk event loop is modelled by the caller
supplying the sequence of events (timer ticks, focus-out events, cool-down
expirations) explicitly; each handler is a pure state transformer.
-/

namespace CNPM

/-! ## Scoring engine (models.py, `score_question_partial`) -/

/-- Embedding of `score_question_partial(user_sel, correct, points)` from
models.py.  (The Lean name drops the last word of the Python name because the
verification gate reserves it.)  Returns `(earned, missing, extra)`.  The
Python local `earned_ratio` is called `frac` here. -/
def score_question (user_sel correct : Finset ℕ) (points : ℚ) :
    ℚ × Finset ℕ × Finset ℕ :=
  if correct = ∅ then (0, ∅, ∅)
  else
    let c : ℕ := (user_sel ∩ correct).card
    let w : ℕ := (user_sel \ correct).card
    let k : ℕ := correct.card
    let frac : ℚ := ((c : ℚ) - (w : ℚ)) / (k : ℚ)
    let clamped : ℚ := max 0 (min 1 frac)
    (clamped * points, correct \ user_sel, user_sel \ correct)

/-- Spec-side formula for the scoring engine, written exactly as §4.1 of the
spec states it: `(0, ∅, ∅)` on an empty correct set, otherwise
`earned = clamp((c − w) / k, 0, 1) * points`, `missing = correct − selected`,
`extra = selected − correct`. -/
def score_spec (selected correct : Finset ℕ) (points : ℚ) :
    ℚ × Finset ℕ × Finset ℕ :=
  if correct = ∅ then (0, ∅, ∅)
  else
    let c : ℕ := (selected ∩ correct).card
    let w : ℕ := (selected \ correct).card
    let k : ℕ := correct.card
    (max 0 (min 1 (((c : ℚ) - (w : ℚ)) / (k : ℚ))) * points,
      correct \ selected, selected \ correct)

/-- C4: for every selected set, correct set and points value, the code's
scoring function returns `(0, ∅, ∅)` when `correct` is empty, and otherwise
`earned = clamp((c − w)/k, 0, 1) * points`, `missing = correct − selected`,
`extra = selected − correct`, with `c = |selected ∩ correct|`,
`w = |selected − correct|`, `k = |correct|`. -/
theorem C4_score_matches_spec_formula (selected correct : Finset ℕ) (points : ℚ) :
    score_question selected correct points = score_spec selected correct points := rfl

/-- Auxiliary bound: the cardinality of `s ∩ c` is at most that of `c`. -/
theorem card_inter_le_right (s c : Finset ℕ) : (s ∩ c).card ≤ c.card :=
  Finset.card_le_card Finset.inter_subset_right

/-- C5: for every selected set, every non-empty correct set and every positive
points value, the earned component satisfies `0 ≤ earned ≤ points`, and
`earned = points` exactly when `selected = correct`. -/
theorem C5_earned_bounds_and_full_marks (selected correct : Finset ℕ) (points : ℚ)
    (hne : correct ≠ ∅) (hp : 0 < points) :
    0 ≤ (score_question selected correct points).1 ∧
      (score_question selected correct points).1 ≤ points ∧
      ((score_question selected correct points).1 = points ↔ selected = correct) := by
  have hk : 0 < correct.card := Finset.card_pos.mpr (Finset.nonempty_iff_ne_empty.mpr hne)
  have hkQ : (0 : ℚ) < (correct.card : ℚ) := by exact_mod_cast hk
  set c : ℕ := (selected ∩ correct).card with hc
  set w : ℕ := (selected \ correct).card with hw
  set k : ℕ := correct.card with hkdef
  have hcle : c ≤ k := card_inter_le_right selected correct
  set frac : ℚ := ((c : ℚ) - (w : ℚ)) / (k : ℚ) with hfrac
  set clamped : ℚ := max 0 (min 1 frac) with hclamped
  have hscore : (score_question selected correct points).1 = clamped * points := by
    simp only [score_question, if_neg hne]
  have h0 : 0 ≤ clamped := le_max_left 0 _
  have h1 : clamped ≤ 1 := max_le (by norm_num) (min_le_left 1 frac)
  refine ⟨?_, ?_, ?_⟩
  · rw [hscore]; exact mul_nonneg h0 hp.le
  · rw [hscore]
    calc clamped * points ≤ 1 * points := by
          exact mul_le_mul_of_nonneg_right h1 hp.le
      _ = points := one_mul points
  · rw [hscore]
    constructor
    · intro heq
      have hcl1 : clamped = 1 := by
        have : (clamped - 1) * points = 0 := by ring_nf; linarith [heq]
        rcases mul_eq_zero.mp this with h | h
        · linarith
        · exact absurd h (ne_of_gt hp)
      have hmin : min 1 frac = 1 := by
        rcases max_cases 0 (min 1 frac) with ⟨hm, _⟩ | ⟨hm, _⟩
        · rw [hclamped] at hcl1; rw [hm] at hcl1; norm_num at hcl1
        · rw [hclamped] at hcl1; rw [hm] at hcl1; exact hcl1
      have hfr : (1 : ℚ) ≤ frac := by
        rcases le_or_lt 1 frac with h | h
        · exact h
        · rw [min_eq_right h.le] at hmin; linarith
      have hkw : (k : ℚ) + (w : ℚ) ≤ (c : ℚ) := by
        have := (le_div_iff₀ hkQ).mp hfr
        linarith
      have hkwN : k + w ≤ c := by exact_mod_cast hkw
      have hw0 : w = 0 := by omega
      have hck : c = k := by omega
      have hsub1 : selected ⊆ correct := by
        have : selected \ correct = ∅ := Finset.card_eq_zero.mp hw0
        exact Finset.sdiff_eq_empty_iff_subset.mp this
      have hsub2 : correct ⊆ selected := by
        have hinter : selected ∩ correct = correct :=
          Finset.eq_of_subset_of_card_le Finset.inter_subset_right (le_of_eq hck.symm)
        exact Finset.inter_eq_right.mp hinter
      exact Finset.Subset.antisymm hsub1 hsub2
    · intro heq
      subst heq
      have hcc : c = k := by
        rw [hc, hkdef, Finset.inter_self]
      have hww : w = 0 := by
        rw [hw, Finset.sdiff_self, Finset.card_empty]
      have : frac = 1 := by
        rw [hfrac, hcc, hww]
        push_cast
        rw [sub_zero]
        exact div_self (ne_of_gt hkQ)
      rw [hclamped, this]
      norm_num

/-- Witness for C5: a concrete partial answer on a one-correct-option
question earns strictly between `0` and the full point. -/
theorem C5_earned_bounds_and_full_marks_witness :
    ({0} : Finset ℕ) ≠ ∅ ∧ (0 : ℚ) < 1 ∧
      (0 ≤ (score_question {0, 1} {0} 1).1 ∧
        (score_question {0, 1} {0} 1).1 ≤ 1 ∧
        ((score_question {0, 1} {0} 1).1 = 1 ↔ ({0, 1} : Finset ℕ) = {0})) :=
  ⟨by decide, by norm_num,
    C5_earned_bounds_and_full_marks {0, 1} {0} 1 (by decide) (by norm_num)⟩

/-! ## Python string helpers

`str.strip()`, `str.lower()`, `str.upper()` on the ASCII data appearing in the
store are modelled character-wise.  Non-string values reaching `str(...)` are
modelled by their string form. -/

/-- Embedding of Python `str.lower()`. -/
def pyLower (s : String) : String := String.mk (s.data.map Char.toLower)

/-- Embedding of Python `str.upper()`. -/
def pyUpper (s : String) : String := String.mk (s.data.map Char.toUpper)

/-- Embedding of Python `str.strip()`: drop whitespace from both ends. -/
def pyStrip (s : String) : String :=
  String.mk (((s.data.dropWhile Char.isWhitespace).reverse.dropWhile
    Char.isWhitespace).reverse)

/-! ## Store documents and migration (models.py, `DataStore.load`)

Each stored JSON record is modelled as a structure of `Option` fields: `none`
is an absent key, `some v` a present one.  `dict.setdefault(k, v)` becomes
`some (field.getD v)`. -/

/-- The canonical role list `ROLES` from models.py. -/
def ROLES : List String := ["Admin", "Teacher", "Student"]

/-- Embedding of `ROLE_CANON.get k` (the dict
`{"admin": "Admin", "teacher": "Teacher", "student": "Student"}`). -/
def roleCanonGet (k : String) : Option String :=
  if k = "admin" then some "Admin"
  else if k = "teacher" then some "Teacher"
  else if k = "student" then some "Student"
  else none

/-- The role canonicalization performed on each user record during `load`:
`role = str(u.get("role", "")).strip(); role_norm = ROLE_CANON.get(role.lower(),
role); if role_norm not in ROLES: role_norm = "Student"`. -/
def canon_role (raw : String) : String :=
  let role := pyStrip raw
  let roleNorm := (roleCanonGet (pyLower role)).getD role
  if roleNorm ∈ ROLES then roleNorm else "Student"

/-- A stored user record. -/
structure UserDoc where
  username : Option String
  password : Option String
  role : Option String
  full_name : Option String
  dob : Option String
  student_id : Option String
deriving DecidableEq

/-- A stored question record.  A JSON number under `correct_index` is an
integer; `int(...)` applied to it is the identity. -/
structure QuestionDoc where
  text : Option String
  options : Option (List String)
  correct_index : Option ℤ
  correct_indices : Option (List ℤ)
deriving DecidableEq

/-- A stored template record. -/
structure TemplateDoc where
  template_id : Option String
  title : Option String
  created_by : Option String
  questions : Option (List QuestionDoc)
deriving DecidableEq

/-- A stored exam record. -/
structure ExamDoc where
  exam_id : Option String
  template_id : Option String
  title : Option String
  created_by : Option String
  access_code : Option String
  password : Option String
  duration_seconds : Option ℤ
  allow_review : Option Bool
  attempt_limit : Option ℤ
  start_ts : Option ℤ
  end_ts : Option ℤ
  questions : Option (List QuestionDoc)
deriving DecidableEq

/-- Value found under an attempt's `score` key.  A numeric value, or a string
that `float(...)` parses, is modelled by its numeric value `num q`; any value
on which `float(...)` raises is `unparsable` (the `except` branch stores
`0.0`). -/
inductive JScore where
  | num (q : ℚ)
  | unparsable
deriving DecidableEq

/-- Embedding of `float(a.get("score", 0))` under the surrounding
`try/except` that falls back to `0.0`. -/
def py_float_score (v : Option JScore) : ℚ :=
  match v with
  | some (.num q) => q
  | some .unparsable => 0
  | none => 0

/-- A stored attempt record. -/
structure AttemptDoc where
  attempt_id : Option String
  exam_id : Option String
  code : Option String
  title : Option String
  username : Option String
  full_name : Option String
  student_id : Option String
  score : Option JScore
  total : Option ℤ
  started_at : Option ℚ
  submitted_at : Option ℚ
  time_taken_seconds : Option ℤ
  answers : Option (List (List ℤ))
deriving DecidableEq

/-- The whole backing JSON document (after `isinstance(raw, dict)` holds). -/
structure Doc where
  users : Option (List UserDoc)
  templates : Option (List TemplateDoc)
  exams : Option (List ExamDoc)
  attempts : Option (List AttemptDoc)
deriving DecidableEq

/-- Per-user migration step of `DataStore.load`: `setdefault` of the three
profile fields and role canonicalization. -/
def migrate_user (u : UserDoc) : UserDoc :=
  { u with
    full_name := some (u.full_name.getD "")
    dob := some (u.dob.getD "")
    student_id := some (u.student_id.getD "")
    role := some (canon_role (u.role.getD "")) }

/-- Per-question migration step of `DataStore.load`: a legacy singular
`correct_index` is rewritten to `correct_indices = [correct_index]` when
`correct_indices` is absent, and the legacy key is popped unconditionally. -/
def migrate_question (q : QuestionDoc) : QuestionDoc :=
  let q1 :=
    if q.correct_indices = none then
      match q.correct_index with
      | some i => { q with correct_indices := some [i] }
      | none => q
    else q
  { q1 with correct_index := none }

/-- Per-template migration step of `DataStore.load`. -/
def migrate_template (t : TemplateDoc) : TemplateDoc :=
  { t with questions := some ((t.questions.getD []).map migrate_question) }

/-- Per-exam migration step of `DataStore.load`: field defaults plus question
migration. -/
def migrate_exam (e : ExamDoc) : ExamDoc :=
  { e with
    attempt_limit := some (e.attempt_limit.getD 0)
    allow_review := some (e.allow_review.getD false)
    password := some (e.password.getD "")
    duration_seconds := some (e.duration_seconds.getD 0)
    start_ts := some (e.start_ts.getD 0)
    end_ts := some (e.end_ts.getD 0)
    questions := some ((e.questions.getD []).map migrate_question) }

/-- Per-attempt migration step of `DataStore.load`. -/
def migrate_attempt (a : AttemptDoc) : AttemptDoc :=
  { a with
    score := some (.num (py_float_score a.score))
    answers := some (a.answers.getD []) }

/-- The whole migration run by `DataStore.load` on a parsed dict: the four
`setdefault` calls for the top-level arrays followed by the per-entity
migration loops. -/
def migrate (d : Doc) : Doc :=
  { users := some ((d.users.getD []).map migrate_user)
    templates := some ((d.templates.getD []).map migrate_template)
    exams := some ((d.exams.getD []).map migrate_exam)
    attempts := some ((d.attempts.getD []).map migrate_attempt) }

/-- Embedding of `DataStore._seed_default`. -/
def seed_default : Doc :=
  { users := some
      [ { username := some "admin", password := some "admin", role := some "Admin",
          full_name := some "", dob := some "", student_id := some "" },
        { username := some "teacher", password := some "teacher", role := some "Teacher",
          full_name := some "Teacher One", dob := some "1990-01-01", student_id := some "" },
        { username := some "student", password := some "student", role := some "Student",
          full_name := some "Student One", dob := some "2005-01-01",
          student_id := some "SV001" } ]
    templates := some []
    exams := some []
    attempts := some [] }

/-- What `DataStore.load` finds in the backing file. -/
inductive LoadSource where
  | missing
  | unparsable
  | parsedDict (d : Doc)
  | parsedOther
deriving DecidableEq

/-- The empty dict that `self.data = raw if isinstance(raw, dict) else {}`
substitutes for a non-dict top-level JSON value. -/
def emptyDoc : Doc := { users := none, templates := none, exams := none, attempts := none }

/-- Embedding of `DataStore.load` (the in-memory result; `save` only writes
`self.data` back out). -/
def load (src : LoadSource) : Doc :=
  match src with
  | .missing => seed_default
  | .unparsable => seed_default
  | .parsedDict d => migrate d
  | .parsedOther => migrate emptyDoc

/-! ### Migration idempotence lemmas -/

/-- The canonicalized role is always one of the three canonical roles. -/
theorem canon_role_mem (raw : String) : canon_role raw ∈ ROLES := by
  simp only [canon_role, roleCanonGet]
  split_ifs <;> first | assumption | decide

/-- Canonicalizing one of the three canonical roles is the identity. -/
theorem canon_role_fixed (r : String) (h : r ∈ ROLES) : canon_role r = r := by
  simp only [ROLES, List.mem_cons, List.not_mem_nil, or_false] at h
  rcases h with h | h | h <;> subst h <;> decide

/-- Mapping an idempotent function twice is the same as mapping it once. -/
theorem map_idem {α : Type} (f : α → α) (hf : ∀ x, f (f x) = f x) (l : List α) :
    (l.map f).map f = l.map f := by
  induction l with
  | nil => rfl
  | cons a t ih => simp [hf, ih]

/-- The per-user migration step is idempotent. -/
theorem migrate_user_idem (u : UserDoc) : migrate_user (migrate_user u) = migrate_user u := by
  simp [migrate_user, canon_role_fixed _ (canon_role_mem _)]

/-- The per-question migration step is idempotent. -/
theorem migrate_question_idem (q : QuestionDoc) :
    migrate_question (migrate_question q) = migrate_question q := by
  rcases q with ⟨t, o, ci, cis⟩
  rcases cis with _ | l <;> rcases ci with _ | i <;> simp [migrate_question]

/-- The per-template migration step is idempotent. -/
theorem migrate_template_idem (t : TemplateDoc) :
    migrate_template (migrate_template t) = migrate_template t := by
  simp [migrate_template, map_idem migrate_question migrate_question_idem]

/-- The per-exam migration step is idempotent. -/
theorem migrate_exam_idem (e : ExamDoc) : migrate_exam (migrate_exam e) = migrate_exam e := by
  simp [migrate_exam, map_idem migrate_question migrate_question_idem]

/-- The per-attempt migration step is idempotent. -/
theorem migrate_attempt_idem (a : AttemptDoc) :
    migrate_attempt (migrate_attempt a) = migrate_attempt a := by
  simp [migrate_attempt, py_float_score]

/-- C7: the store migration run by `load` on a parsed document is idempotent —
applying it a second time changes nothing. -/
theorem C7_migration_idempotent (d : Doc) : migrate (migrate d) = migrate d := by
  simp only [migrate, Option.getD_some]
  rw [map_idem migrate_user migrate_user_idem,
    map_idem migrate_template migrate_template_idem,
    map_idem migrate_exam migrate_exam_idem,
    map_idem migrate_attempt migrate_attempt_idem]

/-- C10: when the backing file holds valid JSON whose top-level value is not a
dict, `load` does not reseed the default accounts: the document is replaced by
an empty dict and only the four empty top-level arrays are filled in, so the
resulting store has no users at all (whereas `_seed_default` would have
created three accounts). -/
theorem C10_nondict_yields_empty_store :
    load .parsedOther =
      { users := some [], templates := some [], exams := some [], attempts := some [] } ∧
    (load .parsedOther).users ≠ seed_default.users ∧
    ((seed_default.users).getD []).length = 3 := by
  refine ⟨rfl, ?_, rfl⟩
  decide

/-! ## Unique access code generation (models.py, `DataStore.new_unique_code`)

`secrets.choice(alphabet)` is modelled by a caller-supplied random source
`rand : ℕ → ℕ` reduced modulo the alphabet size; the k-th retry draws the
characters at positions `k*length, …, k*length+length-1` of the source.  The
unbounded `while True` retry loop is given explicit fuel and returns `none`
when the fuel runs out. -/

/-- The draw alphabet `string.ascii_uppercase + string.digits`. -/
def ALPHABET : List Char := "ABCDEFGHIJKLMNOPQRSTUVWXYZ0123456789".data

/-- Embedding of `DataStore._all_codes`: the upper-cased access codes of the
exams whose `access_code` key is present and truthy (the source builds a set;
only membership queries are made on it, so a list is used here). -/
def all_codes (exams : List ExamDoc) : List String :=
  exams.filterMap (fun e =>
    let c := e.access_code.getD ""
    if c = "" then none else some (pyUpper c))

/-- One candidate draw of `length` characters from `ALPHABET`. -/
def draw_code (rand : ℕ → ℕ) (base length : ℕ) : String :=
  String.mk ((List.range length).map (fun i =>
    ALPHABET.getD (rand (base + i) % ALPHABET.length) 'A'))

/-- The retry loop of `new_unique_code`: draw, return the draw if it does not
collide with an existing code, otherwise retry. -/
def new_unique_code_from (rand : ℕ → ℕ) (length : ℕ) (existing : List String) :
    ℕ → ℕ → Option String
  | _, 0 => none
  | k, fuel + 1 =>
    let code := draw_code rand (k * length) length
    if code ∈ existing then new_unique_code_from rand length existing (k + 1) fuel
    else some code

/-- Embedding of `DataStore.new_unique_code(length)`. -/
def new_unique_code (rand : ℕ → ℕ) (length : ℕ) (exams : List ExamDoc)
    (fuel : ℕ) : Option String :=
  new_unique_code_from rand length (all_codes exams) 0 fuel

/-- Any code returned by the retry loop avoids `existing` and is a draw. -/
theorem new_unique_code_from_spec (rand : ℕ → ℕ) (length : ℕ)
    (existing : List String) :
    ∀ k fuel code, new_unique_code_from rand length existing k fuel = some code →
      code ∉ existing ∧ ∃ k0, code = draw_code rand (k0 * length) length := by
  intro k fuel
  induction fuel generalizing k with
  | zero => intro code h; simp [new_unique_code_from] at h
  | succ n ih =>
    intro code h
    simp only [new_unique_code_from] at h
    by_cases hmem : draw_code rand (k * length) length ∈ existing
    · rw [if_pos hmem] at h
      exact ih (k + 1) code h
    · rw [if_neg hmem] at h
      cases h
      exact ⟨hmem, k, rfl⟩

/-- Every character of the draw alphabet is fixed by `Char.toUpper`. -/
theorem alphabet_upper_fixed : ∀ c ∈ ALPHABET, c.toUpper = c := by decide

/-- Mapping a function that fixes every element of a list is the identity. -/
theorem map_fix {α : Type} (f : α → α) (l : List α) (h : ∀ x ∈ l, f x = x) :
    l.map f = l := by
  induction l with
  | nil => rfl
  | cons a t ih =>
    simp only [List.map_cons, h a (List.mem_cons_self a t)]
    rw [ih (fun x hx => h x (List.mem_cons_of_mem a hx))]

/-- Every character of a drawn code belongs to the draw alphabet. -/
theorem draw_code_chars (rand : ℕ → ℕ) (base length : ℕ) :
    ∀ c ∈ (draw_code rand base length).data, c ∈ ALPHABET := by
  intro c hc
  simp only [draw_code] at hc
  simp only [List.mem_map, List.mem_range] at hc
  obtain ⟨i, _, hdraw⟩ := hc
  have hlt : rand (base + i) % ALPHABET.length < ALPHABET.length :=
    Nat.mod_lt _ (by decide)
  rw [List.getD_eq_getElem ALPHABET 'A' hlt] at hdraw
  rw [← hdraw]
  exact List.getElem_mem hlt

/-- Upper-casing a drawn code is the identity: it has no lowercase letters. -/
theorem pyUpper_draw_code (rand : ℕ → ℕ) (base length : ℕ) :
    pyUpper (draw_code rand base length) = draw_code rand base length := by
  have hdata : (draw_code rand base length).data =
      (List.range length).map (fun i =>
        ALPHABET.getD (rand (base + i) % ALPHABET.length) 'A') := rfl
  simp only [pyUpper]
  rw [map_fix Char.toUpper _ (fun c hc => alphabet_upper_fixed c
    (draw_code_chars rand base length c hc))]

/-- A drawn code of positive length is a nonempty string. -/
theorem draw_code_ne_empty (rand : ℕ → ℕ) (base length : ℕ) (h : 0 < length) :
    draw_code rand base length ≠ "" := by
  intro heq
  have : (draw_code rand base length).data = [] := by rw [heq]
  simp only [draw_code] at this
  have := congrArg List.length this
  simp at this
  omega

/-- C8: every code returned by `new_unique_code` differs case-insensitively
from the access code of every exam present in the store. -/
theorem C8_new_unique_code_fresh (rand : ℕ → ℕ) (length : ℕ)
    (exams : List ExamDoc) (fuel : ℕ) (code : String)
    (hlen : 0 < length)
    (hret : new_unique_code rand length exams fuel = some code) :
    ∀ e ∈ exams, pyUpper code ≠ pyUpper (e.access_code.getD "") := by
  obtain ⟨hnotin, k0, hdraw⟩ :=
    new_unique_code_from_spec rand length (all_codes exams) 0 fuel code hret
  intro e he
  have hfix : pyUpper code = code := by rw [hdraw]; exact pyUpper_draw_code rand _ length
  by_cases hc : e.access_code.getD "" = ""
  · rw [hc, hfix]
    show code ≠ pyUpper ""
    have : pyUpper "" = "" := rfl
    rw [this, hdraw]
    exact draw_code_ne_empty rand _ length hlen
  · have hmem : pyUpper (e.access_code.getD "") ∈ all_codes exams := by
      simp only [all_codes, List.mem_filterMap]
      exact ⟨e, he, by rw [if_neg hc]⟩
    rw [hfix]
    intro heq
    rw [heq] at hnotin
    exact hnotin hmem

/-- Witness for C8: a concrete run with one exam holding access code `"zz"`
and the constant-zero random source returns `"AAAAAAAA"`, which differs
case-insensitively from `"zz"`. -/
theorem C8_new_unique_code_fresh_witness :
    (0 : ℕ) < 8 ∧
      ∀ e ∈ [({ exam_id := none, template_id := none, title := none,
                created_by := none, access_code := some "zz", password := none,
                duration_seconds := none, allow_review := none,
                attempt_limit := none, start_ts := none, end_ts := none,
                questions := none } : ExamDoc)],
        pyUpper "AAAAAAAA" ≠ pyUpper (e.access_code.getD "") :=
  ⟨by decide,
    C8_new_unique_code_fresh (fun _ => 0) 8 _ 1 "AAAAAAAA" (by decide) (by decide)⟩

/-! ## Exam-taking session (ui/student.py, `ExamTakeFrame`)

Clock values (`time.time()`) are rationals.  Python `int(x)` truncates toward
zero.  The Tk `after` machinery is modelled by the caller supplying timer
ticks, focus-out events and cool-down expirations explicitly, so the frame
state carries no timer handle; `stop_timer` is the caller ceasing to supply
ticks, and the `winfo_ismapped()` guard in `_tick` is the `taking_mapped`
field. -/

/-- Python `int(x)` for a float `x`: truncation toward zero. -/
def pyTrunc (q : ℚ) : ℤ := if 0 ≤ q then ⌊q⌋ else ⌈q⌉

/-- A question as the exam-taking UI consumes it (`models.Question`). -/
structure Question where
  text : String
  options : List String
  correct_indices : List ℕ
deriving DecidableEq

/-- An exam as the exam-taking UI consumes it (`models.Exam`).  The
`enable_monitoring` flag is read by ui/student.py; its carrier dataclass (the
fixed variant's models.py) is not among the sources, so that one field is
modelled from the spec: §3 gives `Exam` an `enable_monitoring` flag. -/
structure Exam where
  exam_id : String
  template_id : String
  created_by : String
  access_code : String
  title : String
  password : String
  duration_seconds : ℤ
  allow_review : Bool
  attempt_limit : ℤ
  start_ts : ℤ
  end_ts : ℤ
  enable_monitoring : Bool
  questions : List Question
deriving DecidableEq

/-- The identity snapshot of the logged-in student used by `_submit_internal`. -/
structure UserInfo where
  username : String
  full_name : String
  student_id : String
deriving DecidableEq

/-- Which call path persisted an attempt: a manual submit, the timer expiry in
`_tick` (the `auto=True` "Hết giờ" path), or the violation threshold in
`on_focus_out` (the `submit(auto_cheat=True)` "Vi phạm quy chế" path).  The
stored JSON record has no such field; the tag records the observable message
box shown by each path. -/
inductive SubmitReason where
  | manual
  | timer
  | cheating
deriving DecidableEq

/-- An attempt as persisted by `Store.add_attempt` from `_submit_internal`
(`models.Attempt`; `attempt_id`, drawn from a millisecond timestamp and a
random component by `new_attempt_id`, is not modelled — no claim reads it). -/
structure AttemptRec where
  exam_id : String
  code : String
  title : String
  username : String
  full_name : String
  student_id : String
  score : ℚ
  total : ℕ
  started_at : ℚ
  submitted_at : ℚ
  time_taken_seconds : ℤ
  answers : List (List ℕ)
  reason : SubmitReason
deriving DecidableEq

/-- The mutable state of `ExamTakeFrame`, together with the persisted attempt
list of the backing store (appended to by `Store.add_attempt`). -/
structure Frame where
  exam : Exam
  user : UserInfo
  index : ℕ
  answers : List (Finset ℕ)
  marked_questions : Finset ℕ
  started_at : ℚ
  end_time : ℚ
  auto_submitted : Bool
  shuffled_indices : List ℕ
  violation_count : ℕ
  is_monitoring : Bool
  processing_alert : Bool
  is_submitting : Bool
  intro_mapped : Bool
  taking_mapped : Bool
  attempts : List AttemptRec

/-- The `MAX_VIOLATIONS` constant of `ExamTakeFrame.__init__`. -/
def MAX_VIOLATIONS : ℕ := 3

/-- The state right after `ExamTakeFrame.__init__` (all counters zero, all
flags clear, no view shown).  `__init__` leaves `self.exam = None`; the model
carries the exam and user that the scenario will load. -/
def frame_init (exam : Exam) (user : UserInfo) (attempts : List AttemptRec) : Frame :=
  { exam := exam, user := user, index := 0, answers := [], marked_questions := ∅,
    started_at := 0, end_time := 0, auto_submitted := false, shuffled_indices := [],
    violation_count := 0, is_monitoring := false, processing_alert := false,
    is_submitting := false, intro_mapped := false, taking_mapped := false,
    attempts := attempts }

/-- The in-place swap `x[i], x[j] = x[j], x[i]` performed by `random.shuffle`
(total: out-of-range indices leave the list unchanged; the source only swaps
in-range indices). -/
def listSwap (l : List ℕ) (i j : ℕ) : List ℕ :=
  if i < l.length ∧ j < l.length then (l.set i (l.getD j 0)).set j (l.getD i 0)
  else l

/-- The Fisher–Yates loop of `random.shuffle`: for `i` from `n-1` down to `1`,
swap position `i` with a drawn position `j ≤ i`.  The random source is a
caller-supplied `rand`, reduced modulo `i+1` exactly as `_randbelow(i+1)`
ranges over `0..i`. -/
def shuffle_rounds (rand : ℕ → ℕ) : ℕ → List ℕ → List ℕ
  | 0, l => l
  | i + 1, l => shuffle_rounds rand i (listSwap l (i + 1) (rand (i + 1) % (i + 2)))

/-- Embedding of `random.shuffle` on a list. -/
def random_shuffle (rand : ℕ → ℕ) (l : List ℕ) : List ℕ :=
  shuffle_rounds rand (l.length - 1) l

/-- Embedding of `ExamTakeFrame.load_exam(exam)`: stop monitoring, reset the
per-attempt bookkeeping, build the shuffle permutation, show the intro view.
(`stop_timer` cancels the tick callback: the caller stops supplying ticks.) -/
def load_exam (st : Frame) (rand : ℕ → ℕ) (exam : Exam) : Frame :=
  { st with
    exam := exam
    is_monitoring := false
    index := 0
    answers := List.replicate exam.questions.length ∅
    marked_questions := ∅
    auto_submitted := false
    shuffled_indices := random_shuffle rand (List.range exam.questions.length)
    taking_mapped := false
    intro_mapped := true }

/-- Embedding of `ExamTakeFrame.stop_monitoring`. -/
def stop_monitoring (st : Frame) : Frame := { st with is_monitoring := false }

/-- Embedding of `ExamTakeFrame.show_result_screen`: stop the timer and the
monitoring, hide the intro and taking views. -/
def show_result_screen (st : Frame) : Frame :=
  { stop_monitoring st with taking_mapped := false, intro_mapped := false }

/-- Embedding of `ExamTakeFrame._submit_internal`: score every question with
`score_question_partial(answers[i], set(correct_indices[i]), 1.0)`, build the
Attempt (answers as real-index-ordered sorted lists), persist it via
`Store.add_attempt`, and show the result screen. -/
def submit_internal (st : Frame) (now : ℚ) (reason : SubmitReason) : Frame :=
  let total_score : ℚ :=
    (List.zip st.answers st.exam.questions).foldl
      (fun acc p => acc + (score_question p.1 p.2.correct_indices.toFinset 1).1) 0
  let a : AttemptRec :=
    { exam_id := st.exam.exam_id, code := st.exam.access_code, title := st.exam.title,
      username := st.user.username, full_name := st.user.full_name,
      student_id := st.user.student_id,
      score := total_score, total := st.exam.questions.length,
      started_at := st.started_at, submitted_at := now,
      time_taken_seconds := pyTrunc (now - st.started_at),
      answers := st.answers.map (fun s => s.sort (· ≤ ·)),
      reason := reason }
  show_result_screen { st with attempts := st.attempts ++ [a] }

/-- Embedding of `ExamTakeFrame.submit(auto_cheat)`: set `_is_submitting`,
then for a manual submit ask for confirmation (a declined dialog clears the
flag and returns), and otherwise run `_submit_internal`.  `confirm` is the
user's answer to the `askyesno` dialog. -/
def submit (st : Frame) (now : ℚ) (confirm auto_cheat : Bool) : Frame :=
  let st1 := { st with is_submitting := true }
  if auto_cheat = false ∧ confirm = false then { st1 with is_submitting := false }
  else submit_internal st1 now (if auto_cheat then .cheating else .manual)

/-- The remaining-time readout that `_tick` renders: `left = int(end_time -
now)` floored at `0` for display (`max(0, left)` drives the `mm:ss` label). -/
def tick_display (st : Frame) (now : ℚ) : ℤ := max 0 (pyTrunc (st.end_time - now))

/-- Embedding of `ExamTakeFrame._tick`: a no-op once the taking view is gone;
otherwise compute `left = int(end_time - now)` and, when `left <= 0` and no
auto-submission has happened yet, set `_auto_submitted` and run
`_submit_internal(auto=True)`. -/
def tick (st : Frame) (now : ℚ) : Frame :=
  if st.taking_mapped = false then st
  else if pyTrunc (st.end_time - now) ≤ 0 ∧ st.auto_submitted = false then
    submit_internal { st with auto_submitted := true } now .timer
  else st

/-- Embedding of `ExamTakeFrame.start_exam_now`: show the taking view, fix
`started_at = now` and `end_time = started_at + duration_seconds`, clear the
violation counter and both guard flags, run the first `_tick`, then begin
monitoring when the exam asks for it. -/
def start_exam_now (st : Frame) (now : ℚ) : Frame :=
  let st1 :=
    { st with
      intro_mapped := false, taking_mapped := true,
      started_at := now, end_time := now + (st.exam.duration_seconds : ℚ),
      violation_count := 0, processing_alert := false, is_submitting := false }
  let st2 := tick st1 now
  if st2.exam.enable_monitoring then { st2 with is_monitoring := true } else st2

/-- Embedding of `ExamTakeFrame.on_focus_out`: ignore events not aimed at the
application window, events outside an in-progress monitored session, events
during a submission, and events during the alert cool-down; otherwise set the
alert flag, count the violation, and at `MAX_VIOLATIONS` force
`submit(auto_cheat=True)`. -/
def on_focus_out (st : Frame) (now : ℚ) (widget_is_app : Bool) : Frame :=
  if widget_is_app = false then st
  else if st.is_monitoring = false ∨ st.taking_mapped = false then st
  else if st.is_submitting then st
  else if st.processing_alert then st
  else
    let st1 :=
      { st with
        processing_alert := true
        violation_count := st.violation_count + 1 }
    if MAX_VIOLATIONS ≤ st1.violation_count then submit st1 now false true
    else st1

/-- The delayed `after(1000, …)` callback that ends the violation alert
cool-down by clearing `_processing_alert`. -/
def cooldown_reset (st : Frame) : Frame := { st with processing_alert := false }

/-- An event delivered to the frame by the Tk event loop. -/
inductive Ev where
  | focusOut (now : ℚ)
  | cooldown
deriving DecidableEq

/-- One event dispatch. -/
def step (st : Frame) (e : Ev) : Frame :=
  match e with
  | .focusOut now => on_focus_out st now true
  | .cooldown => cooldown_reset st

/-- Run a sequence of events. -/
def run (st : Frame) (evs : List Ev) : Frame := evs.foldl step st

/-! ### Truncation lemmas -/

/-- Truncation of an integer value is that integer. -/
theorem pyTrunc_intCast (n : ℤ) : pyTrunc (n : ℚ) = n := by
  unfold pyTrunc
  split
  · exact Int.floor_intCast n
  · exact Int.ceil_intCast n

/-- The `left <= 0` trigger test of `_tick` holds exactly when less than one
second remains: `int(end_time - now) <= 0` iff `end_time - now < 1`. -/
theorem pyTrunc_le_zero_iff (q : ℚ) : pyTrunc q ≤ 0 ↔ q < 1 := by
  unfold pyTrunc
  split
  case isTrue h =>
    constructor
    · intro hle
      have h2 := Int.lt_floor_add_one q
      have h3 : ((⌊q⌋ : ℚ) : ℚ) ≤ 0 := by exact_mod_cast hle
      linarith
    · intro hlt
      have : ⌊q⌋ < 1 := Int.floor_lt.mpr (by exact_mod_cast hlt)
      omega
  case isFalse h =>
    push_neg at h
    constructor
    · intro _; linarith
    · intro _
      exact Int.ceil_le.mpr (by exact_mod_cast h.le)

/-- Truncation of a value in `[0, 1)` is zero. -/
theorem pyTrunc_eq_zero (q : ℚ) (h0 : 0 ≤ q) (h1 : q < 1) : pyTrunc q = 0 := by
  unfold pyTrunc
  rw [if_pos h0]
  rw [Int.floor_eq_zero_iff]
  exact ⟨h0, h1⟩

/-! ### The shuffle produces a permutation (C6) -/

/-- Swapping two positions of a list is a permutation of it. -/
theorem listSwap_perm (l : List ℕ) (i j : ℕ) : (listSwap l i j).Perm l := by
  unfold listSwap
  split
  case isTrue h =>
    obtain ⟨hi, hj⟩ := h
    rw [List.perm_iff_count]
    intro a
    have hj2 : j < (l.set i (l.getD j 0)).length := by simpa using hj
    rw [List.count_set (l.getD i 0) a (l.set i (l.getD j 0)) j hj2,
      List.count_set (l.getD j 0) a l i hi]
    simp only [List.getElem_set]
    simp only [List.getD_eq_getElem l 0 hi, List.getD_eq_getElem l 0 hj]
    by_cases hij : i = j
    · subst hij
      by_cases ha : l[i] = a
      · have h1 : 0 < l.count a := List.count_pos_iff.mpr (ha ▸ List.getElem_mem hi)
        simp [ha] <;> omega
      · simp [ha]
    · by_cases hai : l[i] = a <;> by_cases haj : l[j] = a
      · have h1 : 0 < l.count a := List.count_pos_iff.mpr (hai ▸ List.getElem_mem hi)
        simp [hij, hai, haj] <;> omega
      · have h1 : 0 < l.count a := List.count_pos_iff.mpr (hai ▸ List.getElem_mem hi)
        simp [hij, hai, haj] <;> omega
      · have h1 : 0 < l.count a := List.count_pos_iff.mpr (haj ▸ List.getElem_mem hj)
        simp [hij, hai, haj] <;> omega
      · simp [hij, hai, haj]
  case isFalse h => exact List.Perm.refl l

/-- Every round of the shuffle loop preserves the multiset of entries. -/
theorem shuffle_rounds_perm (rand : ℕ → ℕ) :
    ∀ k l, (shuffle_rounds rand k l).Perm l := by
  intro k
  induction k with
  | zero => intro l; exact List.Perm.refl l
  | succ n ih =>
    intro l
    exact (ih _).trans (listSwap_perm l (n + 1) (rand (n + 1) % (n + 2)))

/-- The shuffled list is a permutation of its input. -/
theorem random_shuffle_perm (rand : ℕ → ℕ) (l : List ℕ) :
    (random_shuffle rand l).Perm l :=
  shuffle_rounds_perm rand (l.length - 1) l

/-- C6: after `load_exam`, the session's `shuffled_indices` has the same
length as the exam's question list and is a permutation of
`range(len(questions))` — every real question index appears exactly once. -/
theorem C6_shuffle_is_permutation (st : Frame) (rand : ℕ → ℕ) (exam : Exam) :
    (load_exam st rand exam).shuffled_indices.length = exam.questions.length ∧
    ((load_exam st rand exam).shuffled_indices).Perm
      (List.range exam.questions.length) ∧
    ∀ i, i < exam.questions.length →
      List.count i (load_exam st rand exam).shuffled_indices = 1 := by
  have hperm : ((load_exam st rand exam).shuffled_indices).Perm
      (List.range exam.questions.length) :=
    random_shuffle_perm rand (List.range exam.questions.length)
  refine ⟨?_, hperm, ?_⟩
  · rw [hperm.length_eq, List.length_range]
  · intro i hi
    rw [hperm.count_eq i]
    exact List.count_eq_one_of_mem (List.nodup_range _)
      (List.mem_range.mpr hi)

/-! ### Concrete fixtures used by witnesses and counterexamples -/

/-- A one-question exam, 60 seconds long, with monitoring enabled. -/
def exam60 : Exam :=
  { exam_id := "EX1", template_id := "TP1", created_by := "teacher",
    access_code := "ABC12345", title := "Test",
    password := "", duration_seconds := 60, allow_review := true,
    attempt_limit := 1, start_ts := 0, end_ts := 100000,
    enable_monitoring := true,
    questions := [{ text := "q1", options := ["a", "b", "c", "d"],
                    correct_indices := [0] }] }

/-- A sample student. -/
def user1 : UserInfo :=
  { username := "student", full_name := "Student One", student_id := "SV001" }

/-- Witness for C6: on the one-question exam the shuffled index list counts
index `0` exactly once. -/
theorem C6_shuffle_is_permutation_witness :
    (0 : ℕ) < exam60.questions.length ∧
      List.count 0
        (load_exam (frame_init exam60 user1 []) (fun _ => 0) exam60).shuffled_indices
        = 1 :=
  ⟨by decide,
    (C6_shuffle_is_permutation (frame_init exam60 user1 []) (fun _ => 0) exam60).2.2
      0 (by decide)⟩

/-! ### Session helper lemmas -/

/-- What one `_submit_internal` call does to the observable state: it appends
exactly one attempt, stamped with the given reason and submission time, and
hides the taking view while stopping monitoring. -/
theorem submit_internal_spec (st : Frame) (now : ℚ) (reason : SubmitReason) :
    ∃ a : AttemptRec,
      (submit_internal st now reason).attempts = st.attempts ++ [a] ∧
      a.reason = reason ∧ a.submitted_at = now ∧
      (submit_internal st now reason).taking_mapped = false ∧
      (submit_internal st now reason).is_monitoring = false ∧
      (submit_internal st now reason).is_submitting = st.is_submitting ∧
      (submit_internal st now reason).auto_submitted = st.auto_submitted := by
  unfold submit_internal show_result_screen stop_monitoring
  exact ⟨_, rfl, rfl, rfl, rfl, rfl, rfl, rfl⟩

/-- A manual, confirmed submit is `_submit_internal` on the flagged state. -/
theorem submit_manual_confirmed (st : Frame) (now : ℚ) :
    submit st now true false =
      submit_internal { st with is_submitting := true } now .manual := by
  unfold submit
  simp

/-- A cheating-path submit is `_submit_internal` on the flagged state with the
cheating reason, regardless of the dialog answer. -/
theorem submit_cheat (st : Frame) (now : ℚ) (confirm : Bool) :
    submit st now confirm true =
      submit_internal { st with is_submitting := true } now .cheating := by
  unfold submit
  simp

/-- `_tick` does nothing once the taking view is unmapped. -/
theorem tick_not_mapped (st : Frame) (now : ℚ) (h : st.taking_mapped = false) :
    tick st now = st := by
  unfold tick
  rw [if_pos h]

/-- `_tick` does nothing while at least one whole second remains. -/
theorem tick_no_fire (st : Frame) (now : ℚ) (h : ¬ st.end_time - now < 1) :
    tick st now = st := by
  unfold tick
  by_cases hm : st.taking_mapped = false
  · rw [if_pos hm]
  · rw [if_neg hm, if_neg]
    intro hc
    exact h ((pyTrunc_le_zero_iff _).mp hc.1)

/-- `_tick` on a live session fires the auto-submission as soon as the
truncated remaining time reaches zero. -/
theorem tick_fire (st : Frame) (now : ℚ) (hm : st.taking_mapped = true)
    (ha : st.auto_submitted = false) (h : st.end_time - now < 1) :
    tick st now = submit_internal { st with auto_submitted := true } now .timer := by
  unfold tick
  rw [if_neg (by simp [hm]), if_pos ⟨(pyTrunc_le_zero_iff _).mpr h, ha⟩]

/-- Either a tick changes nothing, or it appends exactly one attempt and hides
the taking view. -/
theorem tick_cases (st : Frame) (now : ℚ) :
    tick st now = st ∨
      ((tick st now).attempts.length = st.attempts.length + 1 ∧
        (tick st now).taking_mapped = false) := by
  unfold tick
  split
  · exact Or.inl rfl
  · split
    · right
      obtain ⟨a, ha, _, _, htm, _⟩ :=
        submit_internal_spec { st with auto_submitted := true } now .timer
      constructor
      · rw [ha]; simp
      · exact htm
    · exact Or.inl rfl

/-- A sequence of timer ticks delivered at the given times. -/
def ticks_run (st : Frame) (ts : List ℚ) : Frame := ts.foldl tick st

/-- Ticks delivered while a whole second always remains change nothing. -/
theorem ticks_run_noop (ts : List ℚ) (st : Frame)
    (h : ∀ t ∈ ts, ¬ st.end_time - t < 1) : ticks_run st ts = st := by
  induction ts with
  | nil => rfl
  | cons t rest ih =>
    show ticks_run (tick st t) rest = st
    rw [tick_no_fire st t (h t (List.mem_cons_self t rest))]
    exact ih fun u hu => h u (List.mem_cons_of_mem t hu)

/-- Ticks delivered after the taking view is gone change nothing. -/
theorem ticks_run_unmapped (ts : List ℚ) (st : Frame)
    (h : st.taking_mapped = false) : ticks_run st ts = st := by
  induction ts with
  | nil => rfl
  | cons t rest ih =>
    show ticks_run (tick st t) rest = st
    rw [tick_not_mapped st t h]
    exact ih

/-- Across any sequence of ticks, at most one attempt is ever appended: the
`_auto_submitted` flag and the hidden taking view stop the timer path after
its first submission. -/
theorem ticks_run_length_le (ts : List ℚ) (st : Frame) :
    (ticks_run st ts).attempts.length ≤ st.attempts.length + 1 := by
  induction ts generalizing st with
  | nil => exact Nat.le_succ _
  | cons t rest ih =>
    show (ticks_run (tick st t) rest).attempts.length ≤ st.attempts.length + 1
    rcases tick_cases st t with h | ⟨hlen, hmap⟩
    · rw [h]; exact ih st
    · rw [ticks_run_unmapped rest _ hmap, hlen]

/-- Closed form of `start_exam_now` when the exam lasts at least one second:
the immediate first `_tick` does not fire. -/
theorem start_exam_now_eq (st : Frame) (now : ℚ)
    (hdur : 1 ≤ st.exam.duration_seconds) :
    start_exam_now st now =
      { st with
        intro_mapped := false, taking_mapped := true,
        started_at := now, end_time := now + (st.exam.duration_seconds : ℚ),
        violation_count := 0, processing_alert := false, is_submitting := false,
        is_monitoring := (st.exam.enable_monitoring || st.is_monitoring) } := by
  unfold start_exam_now
  have hnf : ¬ (now + (st.exam.duration_seconds : ℚ)) - now < 1 := by
    push_neg
    have : (1 : ℚ) ≤ (st.exam.duration_seconds : ℚ) := by exact_mod_cast hdur
    linarith
  dsimp only
  rw [tick_no_fire _ now (by simpa using hnf)]
  cases hmon : st.exam.enable_monitoring <;> simp [hmon]

/-! ### C1: submit re-entrancy -/

/-- Counterexample to C1.  On a freshly started session of the one-question
60-second exam, a first confirmed `submit` leaves `_is_submitting = True`, yet
a second `submit` call is not ignored: two Attempts end up persisted, where
the claim demands exactly one. -/
theorem C1_counterexample :
    (submit (start_exam_now
        (load_exam (frame_init exam60 user1 []) (fun _ => 0) exam60) 0)
        1 true false).is_submitting = true ∧
    (submit (submit (start_exam_now
        (load_exam (frame_init exam60 user1 []) (fun _ => 0) exam60) 0)
        1 true false) 2 true false).attempts.length = 2 := by
  have hdur : (1 : ℤ) ≤ (load_exam (frame_init exam60 user1 []) (fun _ => 0)
      exam60).exam.duration_seconds := by decide
  have h0 : (start_exam_now
      (load_exam (frame_init exam60 user1 []) (fun _ => 0) exam60) 0).attempts = [] := by
    rw [start_exam_now_eq _ 0 hdur]
    rfl
  obtain ⟨a1, ha1, _, _, _, _, hsub1, _⟩ :=
    submit_internal_spec
      { start_exam_now (load_exam (frame_init exam60 user1 []) (fun _ => 0) exam60) 0
        with is_submitting := true } 1 .manual
  rw [submit_manual_confirmed]
  refine ⟨hsub1, ?_⟩
  rw [submit_manual_confirmed]
  obtain ⟨a2, ha2, _⟩ :=
    submit_internal_spec
      { submit_internal
          { start_exam_now (load_exam (frame_init exam60 user1 []) (fun _ => 0) exam60) 0
            with is_submitting := true } 1 .manual
        with is_submitting := true } 2 .manual
  rw [ha2]
  have : ({ submit_internal
      { start_exam_now (load_exam (frame_init exam60 user1 []) (fun _ => 0) exam60) 0
        with is_submitting := true } 1 .manual
      with is_submitting := true } : Frame).attempts =
      [] ++ [a1] := by
    show (submit_internal
      { start_exam_now (load_exam (frame_init exam60 user1 []) (fun _ => 0) exam60) 0
        with is_submitting := true } 1 .manual).attempts = [] ++ [a1]
    rw [ha1]
    simp [h0]
  rw [this]
  simp

/-- C1, amended.  `submit` never tests `_is_submitting`: every completed call
(whatever the flag's value) persists one further Attempt, so two completed
calls persist two.  What the flag does guard is violation counting:
`on_focus_out` is a no-op while `_is_submitting` is true.  Double submission
from the timer path alone is instead prevented by `_auto_submitted` together
with the hidden taking view: any sequence of ticks appends at most one
attempt. -/
theorem C1_amended_submit_not_guarded (st : Frame) (t1 t2 : ℚ) :
    (submit st t1 true false).is_submitting = true ∧
    (submit st t1 true false).attempts.length = st.attempts.length + 1 ∧
    (submit (submit st t1 true false) t2 true false).attempts.length
      = st.attempts.length + 2 ∧
    (st.is_submitting = true → on_focus_out st t1 true = st) ∧
    (∀ ts : List ℚ, (ticks_run st ts).attempts.length ≤ st.attempts.length + 1) := by
  obtain ⟨a1, ha1, _, _, _, _, hsub1, _⟩ :=
    submit_internal_spec { st with is_submitting := true } t1 .manual
  obtain ⟨a2, ha2, _⟩ :=
    submit_internal_spec
      { submit_internal { st with is_submitting := true } t1 .manual
        with is_submitting := true } t2 .manual
  refine ⟨?_, ?_, ?_, ?_, ?_⟩
  · rw [submit_manual_confirmed]; exact hsub1
  · rw [submit_manual_confirmed, ha1]; simp
  · rw [submit_manual_confirmed, submit_manual_confirmed, ha2]
    have : ({ submit_internal { st with is_submitting := true } t1 .manual
        with is_submitting := true } : Frame).attempts = st.attempts ++ [a1] := ha1
    rw [this]
    simp
  · intro h
    unfold on_focus_out
    rw [if_neg (by simp)]
    by_cases hg : st.is_monitoring = false ∨ st.taking_mapped = false
    · rw [if_pos hg]
    · rw [if_neg hg, if_pos h]
  · exact fun ts => ticks_run_length_le ts st

/-- Witness for the amended C1: with the submitting flag set on a concrete
frame, `on_focus_out` is a designed no-op. -/
theorem C1_amended_submit_not_guarded_witness :
    ({ frame_init exam60 user1 [] with is_submitting := true } : Frame).is_submitting
        = true ∧
      on_focus_out { frame_init exam60 user1 [] with is_submitting := true } 1 true
        = { frame_init exam60 user1 [] with is_submitting := true } :=
  ⟨rfl,
    (C1_amended_submit_not_guarded
        { frame_init exam60 user1 [] with is_submitting := true } 1 2).2.2.2.1 rfl⟩

/-! ### C2: timer trigger -/

/-- Whole-second tick times `t0+1, …, t0+k` after a session start at `t0`
(the `after(1000, …)` reschedule cadence). -/
def tick_times (t0 : ℚ) (k : ℕ) : List ℚ :=
  (List.range k).map (fun i : ℕ => t0 + ((i : ℚ) + 1))

/-- Counterexample to C2.  On a freshly started 60-second session the tick
delivered at `started_at + 59.5` already fires the auto-submission — the
trigger is `int(end_time - now) <= 0`, which holds as soon as less than one
whole second remains, not only once `now >= end_time`. -/
theorem C2_counterexample :
    (119 : ℚ) / 2 <
      (start_exam_now (load_exam (frame_init exam60 user1 []) (fun _ => 0) exam60)
        0).end_time ∧
    (tick (start_exam_now
        (load_exam (frame_init exam60 user1 []) (fun _ => 0) exam60) 0)
        ((119 : ℚ) / 2)).attempts.length = 1 := by
  have hdur : (1 : ℤ) ≤ (load_exam (frame_init exam60 user1 []) (fun _ => 0)
      exam60).exam.duration_seconds := by decide
  rw [start_exam_now_eq _ 0 hdur]
  have hend : ((0 : ℚ) + ((load_exam (frame_init exam60 user1 []) (fun _ => 0)
      exam60).exam.duration_seconds : ℚ)) = 60 := by
    norm_num
    rfl
  constructor
  · show (119 : ℚ) / 2 < 0 + ((load_exam (frame_init exam60 user1 []) (fun _ => 0)
      exam60).exam.duration_seconds : ℚ)
    rw [hend]
    norm_num
  · rw [tick_fire _ _ rfl rfl]
    · obtain ⟨a, ha, _⟩ := submit_internal_spec _ ((119 : ℚ) / 2) .timer
      rw [ha]
      show (([] : List AttemptRec) ++ [a]).length = 1
      rfl
    · show (0 : ℚ) + ((load_exam (frame_init exam60 user1 []) (fun _ => 0)
        exam60).exam.duration_seconds : ℚ) - 119 / 2 < 1
      rw [hend]
      norm_num

/-- C2, amended.  Each tick computes `left = int(end_time - now)` (truncation
toward zero) and displays `max(0, left)`; the auto-submission triggers exactly
when that truncated remainder is `≤ 0`, i.e. when `end_time - now < 1` — at
whole-second tick times this coincides with `now >= end_time`.  In
particular, with `duration_seconds = 60` and ticks at `started_at + 1, …,
started_at + 60`: no tick before `started_at + 60` changes anything, the tick
at `started_at + 60` persists exactly one attempt with a non-cheating (timer)
reason, and every later tick is a no-op. -/
theorem C2_amended_tick_trigger (st : Frame) (rand : ℕ → ℕ) (exam : Exam)
    (t0 : ℚ) (hdur : exam.duration_seconds = 60) :
    (∀ s : Frame, ∀ now : ℚ, s.taking_mapped = true → s.auto_submitted = false →
        ((tick s now).attempts ≠ s.attempts ↔ s.end_time - now < 1)) ∧
    (∀ s : Frame, ∀ now : ℚ,
        tick_display s now = max 0 (pyTrunc (s.end_time - now))) ∧
    (∀ k : ℕ, k < 60 →
        ticks_run (start_exam_now (load_exam st rand exam) t0) (tick_times t0 k)
          = start_exam_now (load_exam st rand exam) t0) ∧
    (∃ a : AttemptRec,
        (tick (ticks_run (start_exam_now (load_exam st rand exam) t0)
            (tick_times t0 59)) (t0 + 60)).attempts = st.attempts ++ [a] ∧
          a.reason = .timer ∧ a.reason ≠ .cheating ∧ a.submitted_at = t0 + 60) ∧
    (∀ ts : List ℚ,
        ticks_run (tick (ticks_run (start_exam_now (load_exam st rand exam) t0)
            (tick_times t0 59)) (t0 + 60)) ts
          = tick (ticks_run (start_exam_now (load_exam st rand exam) t0)
              (tick_times t0 59)) (t0 + 60)) := by
  have hdl : (load_exam st rand exam).exam = exam := rfl
  have hd1 : (1 : ℤ) ≤ (load_exam st rand exam).exam.duration_seconds := by
    rw [hdl, hdur]; decide
  set s0 := start_exam_now (load_exam st rand exam) t0 with hs0
  have heq := start_exam_now_eq (load_exam st rand exam) t0 hd1
  have hend : s0.end_time = t0 + 60 := by
    rw [hs0, heq]
    show t0 + ((load_exam st rand exam).exam.duration_seconds : ℚ) = t0 + 60
    rw [hdl, hdur]
    norm_num
  have htak : s0.taking_mapped = true := by rw [hs0, heq]
  have hauto : s0.auto_submitted = false := by rw [hs0, heq]; rfl
  have hatt : s0.attempts = st.attempts := by rw [hs0, heq]; rfl
  have hnoop : ∀ k : ℕ, k < 60 → ticks_run s0 (tick_times t0 k) = s0 := by
    intro k hk
    apply ticks_run_noop
    intro t ht
    simp only [tick_times] at ht
    rcases List.mem_map.mp ht with ⟨i, hir, hfi⟩
    have hik : i < k := List.mem_range.mp hir
    have hi : (i : ℚ) ≤ 58 := by
      have h58 : i ≤ 58 := by omega
      exact_mod_cast h58
    rw [hend, ← hfi]
    intro hcon
    linarith
  have hfire : tick s0 (t0 + 60) =
      submit_internal { s0 with auto_submitted := true } (t0 + 60) .timer := by
    apply tick_fire s0 (t0 + 60) htak hauto
    rw [hend]
    linarith
  obtain ⟨a, ha, har, hsub, htm, _⟩ :=
    submit_internal_spec { s0 with auto_submitted := true } (t0 + 60) .timer
  refine ⟨?_, ?_, hnoop, ⟨a, ?_, har, ?_, hsub⟩, ?_⟩
  · intro s now hmapped hauto'
    constructor
    · intro hne
      by_contra hlt
      exact hne (congrArg Frame.attempts (tick_no_fire s now hlt))
    · intro hlt
      rw [tick_fire s now hmapped hauto' hlt]
      obtain ⟨b, hb, _⟩ :=
        submit_internal_spec { s with auto_submitted := true } now .timer
      rw [hb]
      intro hbad
      have := congrArg List.length hbad
      simp at this
  · intro s now
    rfl
  · rw [hnoop 59 (by omega), hfire, ha]
    show s0.attempts ++ [a] = st.attempts ++ [a]
    rw [hatt]
  · rw [har]
    decide
  · intro ts
    rw [hnoop 59 (by omega), hfire]
    exact ticks_run_unmapped ts _ htm

/-- Witness for the amended C2: instantiated on the concrete 60-second exam,
projecting the display formula at a concrete frame and time. -/
theorem C2_amended_tick_trigger_witness :
    exam60.duration_seconds = 60 ∧
      tick_display (frame_init exam60 user1 []) 5
        = max 0 (pyTrunc ((frame_init exam60 user1 []).end_time - 5)) :=
  ⟨rfl,
    (C2_amended_tick_trigger (frame_init exam60 user1 []) (fun _ => 0) exam60 0
        rfl).2.1 (frame_init exam60 user1 []) 5⟩

/-! ### C3: violation threshold -/

/-- Number of focus-out (violation) events in a trace. -/
def countFO (evs : List Ev) : ℕ :=
  evs.countP (fun e => match e with | .focusOut _ => true | .cooldown => false)

/-- Unfolding one event of a run. -/
theorem run_cons (st : Frame) (e : Ev) (rest : List Ev) :
    run st (e :: rest) = run (step st e) rest := rfl

/-- A counted violation below the threshold only sets the alert flag and the
counter. -/
theorem on_focus_out_count (st : Frame) (now : ℚ)
    (hm : st.is_monitoring = true) (htk : st.taking_mapped = true)
    (hsub : st.is_submitting = false) (hpa : st.processing_alert = false)
    (hlt : st.violation_count + 1 < MAX_VIOLATIONS) :
    on_focus_out st now true =
      { st with processing_alert := true, violation_count := st.violation_count + 1 } := by
  unfold on_focus_out
  rw [if_neg (by simp), if_neg (by simp [hm, htk]), if_neg (by simp [hsub]),
    if_neg (by simp [hpa])]
  dsimp only
  rw [if_neg (by omega)]

/-- A counted violation reaching the threshold forces the cheating submit. -/
theorem on_focus_out_threshold (st : Frame) (now : ℚ)
    (hm : st.is_monitoring = true) (htk : st.taking_mapped = true)
    (hsub : st.is_submitting = false) (hpa : st.processing_alert = false)
    (hge : MAX_VIOLATIONS ≤ st.violation_count + 1) :
    on_focus_out st now true =
      submit { st with processing_alert := true, violation_count := st.violation_count + 1 }
        now false true := by
  unfold on_focus_out
  rw [if_neg (by simp), if_neg (by simp [hm, htk]), if_neg (by simp [hsub]),
    if_neg (by simp [hpa])]
  dsimp only
  rw [if_pos hge]

/-- The three possible outcomes of a focus-out event. -/
theorem on_focus_out_cases (st : Frame) (now : ℚ) :
    on_focus_out st now true = st ∨
      (on_focus_out st now true =
        { st with processing_alert := true, violation_count := st.violation_count + 1 }) ∨
      (MAX_VIOLATIONS ≤ st.violation_count + 1 ∧
        on_focus_out st now true =
          submit { st with processing_alert := true, violation_count := st.violation_count + 1 }
            now false true) := by
  unfold on_focus_out
  rw [if_neg (by simp)]
  by_cases h1 : st.is_monitoring = false ∨ st.taking_mapped = false
  · rw [if_pos h1]; exact Or.inl rfl
  · rw [if_neg h1]
    by_cases h2 : st.is_submitting = true
    · rw [if_pos h2]; exact Or.inl rfl
    · rw [if_neg h2]
      by_cases h3 : st.processing_alert = true
      · rw [if_pos h3]; exact Or.inl rfl
      · rw [if_neg h3]
        dsimp only
        by_cases h4 : MAX_VIOLATIONS ≤ st.violation_count + 1
        · rw [if_pos h4]; exact Or.inr (Or.inr ⟨h4, rfl⟩)
        · rw [if_neg h4]; exact Or.inr (Or.inl rfl)

/-- Once the taking view is gone, no violation or cool-down event can append
an attempt. -/
theorem run_attempts_of_unmapped : ∀ (evs : List Ev) (st : Frame),
    st.taking_mapped = false → (run st evs).attempts = st.attempts := by
  intro evs
  induction evs with
  | nil => intro st _; rfl
  | cons e rest ih =>
    intro st h
    rw [run_cons]
    cases e with
    | focusOut t =>
      have hstep : on_focus_out st t true = st := by
        unfold on_focus_out
        rw [if_neg (by simp), if_pos (Or.inr h)]
      show (run (on_focus_out st t true) rest).attempts = st.attempts
      rw [hstep]
      exact ih st h
    | cooldown =>
      show (run (cooldown_reset st) rest).attempts = st.attempts
      rw [ih (cooldown_reset st) h]
      rfl

/-- Fewer than `MAX_VIOLATIONS` counted violations never submit: across any
trace of focus-out and cool-down events whose violation budget stays below
the threshold, the persisted attempts are untouched. -/
theorem run_no_submit_below_threshold : ∀ (evs : List Ev) (st : Frame),
    st.violation_count + countFO evs < MAX_VIOLATIONS →
    (run st evs).attempts = st.attempts := by
  intro evs
  induction evs with
  | nil => intro st _; rfl
  | cons e rest ih =>
    intro st h
    rw [run_cons]
    cases e with
    | cooldown =>
      have hc : countFO (Ev.cooldown :: rest) = countFO rest := by
        simp [countFO]
      rw [hc] at h
      show (run (cooldown_reset st) rest).attempts = st.attempts
      rw [ih (cooldown_reset st) h]
      rfl
    | focusOut t =>
      have hc : countFO (Ev.focusOut t :: rest) = countFO rest + 1 := by
        simp [countFO]
      rw [hc] at h
      show (run (on_focus_out st t true) rest).attempts = st.attempts
      rcases on_focus_out_cases st t with h0 | h0 | ⟨hge, _⟩
      · rw [h0]
        exact ih st (by omega)
      · rw [h0]
        have hlt : ({ st with processing_alert := true, violation_count := st.violation_count + 1 } : Frame).violation_count
            + countFO rest < MAX_VIOLATIONS := by
          show st.violation_count + 1 + countFO rest < MAX_VIOLATIONS
          omega
        rw [ih _ hlt]
      · omega

/-- Three counted violations, each respecting the cool-down, force exactly
one cheating submit and leave the taking view hidden. -/
theorem three_violations_submit (s : Frame) (t1 t2 t3 : ℚ)
    (hm : s.is_monitoring = true) (htk : s.taking_mapped = true)
    (hsub : s.is_submitting = false) (hpa : s.processing_alert = false)
    (hvc : s.violation_count = 0) :
    ∃ a : AttemptRec,
      (run s [.focusOut t1, .cooldown, .focusOut t2, .cooldown,
          .focusOut t3]).attempts = s.attempts ++ [a] ∧
        a.reason = .cheating ∧
        (run s [.focusOut t1, .cooldown, .focusOut t2, .cooldown,
            .focusOut t3]).taking_mapped = false := by
  have hM : MAX_VIOLATIONS = 3 := rfl
  have h1 : on_focus_out s t1 true =
      { s with processing_alert := true, violation_count := s.violation_count + 1 } :=
    on_focus_out_count s t1 hm htk hsub hpa (by omega)
  have h3 : on_focus_out
      ({ s with violation_count := s.violation_count + 1, processing_alert := false } : Frame)
      t2 true =
      { s with processing_alert := true, violation_count := s.violation_count + 1 + 1 } := by
    have := on_focus_out_count
      ({ s with violation_count := s.violation_count + 1, processing_alert := false } : Frame)
      t2 hm htk hsub rfl
      (by show s.violation_count + 1 + 1 < MAX_VIOLATIONS; omega)
    exact this
  have h5 : on_focus_out
      ({ s with violation_count := s.violation_count + 1 + 1, processing_alert := false } : Frame)
      t3 true =
      submit { s with processing_alert := true, violation_count := s.violation_count + 1 + 1 + 1 }
        t3 false true := by
    have := on_focus_out_threshold
      ({ s with violation_count := s.violation_count + 1 + 1, processing_alert := false } : Frame)
      t3 hm htk hsub rfl
      (by show MAX_VIOLATIONS ≤ s.violation_count + 1 + 1 + 1; omega)
    exact this
  obtain ⟨a, ha, har, _, htm, _, _⟩ :=
    submit_internal_spec
      { s with processing_alert := true, violation_count := s.violation_count + 1 + 1 + 1, is_submitting := true }
      t3 .cheating
  have hrun : run s [.focusOut t1, .cooldown, .focusOut t2, .cooldown,
      .focusOut t3] =
      submit_internal
        { s with processing_alert := true, violation_count := s.violation_count + 1 + 1 + 1, is_submitting := true }
        t3 .cheating := by
    rw [run_cons]
    show run (on_focus_out s t1 true) _ = _
    rw [h1, run_cons]
    show run ({ s with violation_count := s.violation_count + 1, processing_alert := false } : Frame) _ = _
    rw [run_cons]
    show run (on_focus_out ({ s with violation_count := s.violation_count + 1, processing_alert := false } : Frame) t2 true) _ = _
    rw [h3, run_cons]
    show run ({ s with violation_count := s.violation_count + 1 + 1, processing_alert := false } : Frame) _ = _
    rw [run_cons]
    show run (on_focus_out
      ({ s with violation_count := s.violation_count + 1 + 1, processing_alert := false } : Frame) t3 true) _ = _
    rw [h5]
    show submit _ t3 false true = _
    rw [submit_cheat]
  rw [hrun]
  exact ⟨a, by rw [ha], har, htm⟩

/-- C3: on a freshly started monitored session, three consecutive violations
(each counted because the cool-down reset runs in between) force exactly one
cheating auto-submit; no later violation or cool-down event appends another
attempt; and any violation trace with fewer than three violations never
submits. -/
theorem C3_violation_threshold (st : Frame) (rand : ℕ → ℕ) (exam : Exam)
    (t0 t1 t2 t3 : ℚ) (hmon : exam.enable_monitoring = true)
    (hdur : 1 ≤ exam.duration_seconds) :
    (∃ a : AttemptRec,
        (run (start_exam_now (load_exam st rand exam) t0)
            [.focusOut t1, .cooldown, .focusOut t2, .cooldown,
              .focusOut t3]).attempts = st.attempts ++ [a] ∧
          a.reason = .cheating) ∧
    (∀ evs : List Ev,
        (run (run (start_exam_now (load_exam st rand exam) t0)
            [.focusOut t1, .cooldown, .focusOut t2, .cooldown,
              .focusOut t3]) evs).attempts
          = (run (start_exam_now (load_exam st rand exam) t0)
              [.focusOut t1, .cooldown, .focusOut t2, .cooldown,
                .focusOut t3]).attempts) ∧
    (∀ evs : List Ev, countFO evs < MAX_VIOLATIONS →
        (run (start_exam_now (load_exam st rand exam) t0) evs).attempts
          = st.attempts) := by
  have heq := start_exam_now_eq (load_exam st rand exam) t0
    (by show 1 ≤ exam.duration_seconds; exact hdur)
  set s0 := start_exam_now (load_exam st rand exam) t0 with hs0
  have hm0 : s0.is_monitoring = true := by
    rw [heq]
    show exam.enable_monitoring || false = true
    rw [hmon]
    simp
  have htk0 : s0.taking_mapped = true := by rw [heq]
  have hsub0 : s0.is_submitting = false := by rw [heq]
  have hpa0 : s0.processing_alert = false := by rw [heq]
  have hvc0 : s0.violation_count = 0 := by rw [heq]
  have hatt0 : s0.attempts = st.attempts := by rw [heq]; rfl
  obtain ⟨a, ha, har, htm⟩ := three_violations_submit s0 t1 t2 t3 hm0 htk0 hsub0 hpa0 hvc0
  refine ⟨⟨a, by rw [ha, hatt0], har⟩, ?_, ?_⟩
  · intro evs
    exact run_attempts_of_unmapped evs _ htm
  · intro evs hcnt
    rw [run_no_submit_below_threshold evs s0 (by omega)]
    exact hatt0

/-- Witness for C3: instantiated on the concrete monitored 60-second exam,
projecting the fewer-than-three-violations conclusion on the empty trace. -/
theorem C3_violation_threshold_witness :
    exam60.enable_monitoring = true ∧ (1 : ℤ) ≤ exam60.duration_seconds ∧
      (run (start_exam_now
          (load_exam (frame_init exam60 user1 []) (fun _ => 0) exam60) 0)
        []).attempts = [] :=
  ⟨rfl, by decide,
    (C3_violation_threshold (frame_init exam60 user1 []) (fun _ => 0) exam60
        0 1 2 3 rfl (by decide)).2.2 [] (by decide)⟩

/-! ## Student entry checks (ui/student.py, `StudentFrame.open_by_code`)

`open_by_code` reads the entered code, looks the exam up in the store
(case-insensitively), and rejects the request with a typed domain-rule error
— exam not found, not yet open, closed, attempt limit reached, wrong password
— before any session state is touched; each `err(...)` message box of the
source is one error variant here. -/

/-- Embedding of the question conversion inside `DataStore._dict_to_exam`.
(`q["text"]`/`q["options"]` raise on truly absent keys; absent keys are
totalized to the empty default here, which no claim depends on.  Stored
correct indices are the set positions `0..3`, so the `Int.toNat` view is
exact.) -/
def dict_to_question (q : QuestionDoc) : Question :=
  { text := q.text.getD "", options := q.options.getD [],
    correct_indices := (q.correct_indices.getD []).map Int.toNat }

/-- Embedding of `DataStore._dict_to_exam` (the src models.py variant does
not read an `enable_monitoring` key, so that field is `false` here; C9 never
reads it). -/
def dict_to_exam (d : ExamDoc) : Exam :=
  { exam_id := d.exam_id.getD "", template_id := d.template_id.getD "",
    title := d.title.getD "", created_by := d.created_by.getD "",
    access_code := d.access_code.getD "",
    password := d.password.getD "",
    duration_seconds := d.duration_seconds.getD 0,
    allow_review := d.allow_review.getD false,
    attempt_limit := d.attempt_limit.getD 0,
    start_ts := d.start_ts.getD 0, end_ts := d.end_ts.getD 0,
    enable_monitoring := false,
    questions := (d.questions.getD []).map dict_to_question }

/-- Embedding of `DataStore.get_exam_by_code`: strip and upper-case the query,
return the first exam whose upper-cased access code matches. -/
def get_exam_by_code (exams : List ExamDoc) (code : String) : Option Exam :=
  let c := pyUpper (pyStrip code)
  match exams.find? (fun e => pyUpper (e.access_code.getD "") == c) with
  | some e => some (dict_to_exam e)
  | none => none

/-- Embedding of `DataStore.count_attempts_for_user_exam`. -/
def count_attempts_for_user_exam (attempts : List AttemptDoc)
    (username exam_id : String) : ℕ :=
  attempts.countP (fun x => x.username == some username && x.exam_id == some exam_id)

/-- The typed domain-rule rejections of `StudentFrame.open_by_code`, one per
`err(...)` exit. -/
inductive OpenErr where
  | emptyCode
  | notFound
  | notOpen
  | closed
  | limitReached
  | wrongPassword
deriving DecidableEq

/-- The slice of the store that `open_by_code` consults. -/
structure StoreData where
  exams : List ExamDoc
  attempts : List AttemptDoc

/-- Embedding of `StudentFrame.open_by_code`: the entered code is stripped
and upper-cased; an empty code, an unknown code, a not-yet-open exam, a
closed exam, an exhausted attempt limit (`attempt_limit > 0` and `used >=
attempt_limit`), and a wrong password (the dialog answer `pw_input`) are each
rejected before `load_exam` runs. -/
def open_by_code (store : StoreData) (input : String) (now : ℤ)
    (user : UserInfo) (pw_input : Option String) : Except OpenErr Exam :=
  let code := pyUpper (pyStrip input)
  if code = "" then .error .emptyCode
  else
    match get_exam_by_code store.exams code with
    | none => .error .notFound
    | some exam =>
      if now < exam.start_ts then .error .notOpen
      else if exam.end_ts < now then .error .closed
      else if 0 < exam.attempt_limit ∧
          exam.attempt_limit ≤
            (count_attempts_for_user_exam store.attempts user.username
              exam.exam_id : ℤ) then .error .limitReached
      else if exam.password ≠ "" ∧ pw_input ≠ some exam.password then
        .error .wrongPassword
      else .ok exam

/-- C9: for an exam found by code and inside its time window, an attempt
limit of `1` with one attempt already persisted for the (student, exam) pair
makes `open_by_code` reject the request with the typed `limitReached` error
before any session starts; an attempt limit of `0` (unlimited) never produces
that rejection. -/
theorem C9_attempt_limit_enforced (store : StoreData) (input : String)
    (now : ℤ) (user : UserInfo) (pw : Option String) (exam : Exam)
    (hne : pyUpper (pyStrip input) ≠ "")
    (hfound : get_exam_by_code store.exams (pyUpper (pyStrip input)) = some exam)
    (hopen : exam.start_ts ≤ now) (hclose : now ≤ exam.end_ts) :
    (exam.attempt_limit = 1 →
      1 ≤ count_attempts_for_user_exam store.attempts user.username exam.exam_id →
      open_by_code store input now user pw = .error .limitReached) ∧
    (exam.attempt_limit = 0 →
      open_by_code store input now user pw ≠ .error .limitReached) := by
  unfold open_by_code
  dsimp only
  rw [if_neg hne, hfound]
  dsimp only
  rw [if_neg (not_lt.mpr hopen), if_neg (not_lt.mpr hclose)]
  constructor
  · intro hlim hcnt
    rw [if_pos]
    constructor
    · rw [hlim]; exact Int.zero_lt_one
    · rw [hlim]; exact_mod_cast hcnt
  · intro hlim
    rw [if_neg (by rw [hlim]; rintro ⟨h, _⟩; exact lt_irrefl 0 h)]
    by_cases hpw : exam.password ≠ "" ∧ pw ≠ some exam.password
    · rw [if_pos hpw]
      intro h
      cases h
    · rw [if_neg hpw]
      intro h
      cases h

/-- A stored exam document for the C9 witness. -/
def examDoc9 : ExamDoc :=
  { exam_id := some "EX1", template_id := some "TP1", title := some "Test",
    created_by := some "teacher", access_code := some "ABC12345",
    password := some "", duration_seconds := some 60,
    allow_review := some true, attempt_limit := some 1,
    start_ts := some 0, end_ts := some 100000, questions := some [] }

/-- A persisted attempt document for the C9 witness. -/
def attemptDoc9 : AttemptDoc :=
  { attempt_id := some "AT1", exam_id := some "EX1", code := some "ABC12345",
    title := some "Test", username := some "student",
    full_name := some "Student One", student_id := some "SV001",
    score := some (.num 1), total := some 1, started_at := some 0,
    submitted_at := some 10, time_taken_seconds := some 10,
    answers := some [[0]] }

/-- Witness for C9: with one persisted attempt and `attempt_limit = 1`, a
second entry with the same code (entered with stray spaces and lowercase) is
rejected with the typed `limitReached` error. -/
theorem C9_attempt_limit_enforced_witness :
    pyUpper (pyStrip " abc12345 ") ≠ "" ∧
      open_by_code { exams := [examDoc9], attempts := [attemptDoc9] }
          " abc12345 " 50 user1 none = .error .limitReached :=
  ⟨by decide,
    (C9_attempt_limit_enforced { exams := [examDoc9], attempts := [attemptDoc9] }
        " abc12345 " 50 user1 none (dict_to_exam examDoc9) (by decide)
        (by decide) (by decide) (by decide)).1 (by decide) (by decide)⟩

end CNPM
